import Mathlib

/-!
# unxip: XIP/XAR archive extractor

A shallow embedding of `src/unxip.cpp` and the properties of its header decoder,
TOC decompression wrapper, TOC parser and payload extractor.

Conventions of the embedding.

* The target is an LP64 little-endian host (the program includes glibc's `byteswap.h`):
  `size_t`, `uint64_t` and `long` are 64 bits wide, pointers are 8 bytes.
* A `FILE*` opened for reading is a regular file: a byte sequence and a cursor.
* The libraries the program links against (zlib, libxml2) and the ability to create an output
  file are parameters, gathered in `World`.
* A null-pointer dereference (undefined behaviour that kills the process) is the value `none`.
-/

namespace Unxip

/-! # Part I: definitions -/

/-! ## Bytes, machine integers and input streams -/

/-- One octet of a file or of memory. -/
abbrev Byte := Fin 256

/-- The constant `MAX_TOC_SIZE` (line 17). -/
def MAX_TOC_SIZE : Nat := 65535

/-- Conversion of an unsigned 64-bit value to `long` (two's complement). -/
def to_long (x : Nat) : Int :=
  if x % 2 ^ 64 < 2 ^ 63 then ((x % 2 ^ 64 : Nat) : Int) else ((x % 2 ^ 64 : Nat) : Int) - 2 ^ 64

/-- Conversion of a `long` to `uint64_t` (reduction modulo `2^64`). -/
def to_uint64 (x : Int) : Nat := (x % 2 ^ 64).toNat

/-- A stdio stream opened with mode `rb` on a regular file: the file's bytes and the cursor. -/
structure FILE where
  data : List Byte
  pos : Nat
deriving DecidableEq

/-- The call `fread(buf, 1, n, f)`: the bytes delivered (at most `n`, fewer only at end of file)
and the stream afterwards. The return value of `fread` is the length of the delivered list. -/
def fread (n : Nat) (f : FILE) : List Byte × FILE :=
  let got := (f.data.drop f.pos).take n
  (got, { f with pos := f.pos + got.length })

/-- The call `fseek(f, offset, SEEK_SET)` on a regular file: a negative offset is refused with
`-1`, any other offset (also one past the end of the file) moves the cursor and yields `0`.
Limits that a file system puts on offsets are not modelled. -/
def fseek (f : FILE) (offset : Int) : Int × FILE :=
  if offset < 0 then (-1, f) else (0, { f with pos := offset.toNat })

/-! ## The header (lines 19-26 and 242-257) -/

/-- The struct `XipHeader` (lines 19-26); every field holds its unsigned value. -/
structure XipHeader where
  signature : Nat
  header_size : Nat
  xar_version : Nat
  toc_size_compressed : Nat
  toc_size_uncompressed : Nat
  checksum_algo : Nat
deriving DecidableEq

/-- The value of `sizeof(struct XipHeader)`: 4 + 2 + 2 + 8 + 8 + 4 bytes, packed. -/
def sizeof_XipHeader : Nat := 28

/-- The byte at index `i` of a memory image (0 outside it). -/
def byteAt (mem : List Byte) (i : Nat) : Nat := (mem.getD i 0).val

/-- A little-endian load of an `n`-byte unsigned integer at offset `off`: what reading a field
of the packed struct yields on the host. -/
def loadLE (mem : List Byte) (off : Nat) : Nat → Nat
  | 0 => 0
  | n + 1 => byteAt mem off + 256 * loadLE mem (off + 1) n

/-- The fields of the packed struct laid over a 28-byte memory image. -/
def XipHeader.ofMemory (mem : List Byte) : XipHeader :=
  { signature := loadLE mem 0 4
    header_size := loadLE mem 4 2
    xar_version := loadLE mem 6 2
    toc_size_compressed := loadLE mem 8 8
    toc_size_uncompressed := loadLE mem 16 8
    checksum_algo := loadLE mem 24 4 }

/-- The glibc operation `__bswap_16`: the two bytes of a 16-bit value exchanged. -/
def __bswap_16 (x : Nat) : Nat := x % 256 * 256 + x / 256 % 256

/-- The glibc operation `__bswap_32`: the four bytes of a 32-bit value reversed. -/
def __bswap_32 (x : Nat) : Nat :=
  x % 256 * 2 ^ 24 + x / 2 ^ 8 % 256 * 2 ^ 16 + x / 2 ^ 16 % 256 * 2 ^ 8 + x / 2 ^ 24 % 256

/-- The glibc operation `__bswap_64`: the eight bytes of a 64-bit value reversed. -/
def __bswap_64 (x : Nat) : Nat :=
  x % 256 * 2 ^ 56 + x / 2 ^ 8 % 256 * 2 ^ 48 + x / 2 ^ 16 % 256 * 2 ^ 40
    + x / 2 ^ 24 % 256 * 2 ^ 32 + x / 2 ^ 32 % 256 * 2 ^ 24 + x / 2 ^ 40 % 256 * 2 ^ 16
    + x / 2 ^ 48 % 256 * 2 ^ 8 + x / 2 ^ 56 % 256

/-- The four bytes of the string literal `xar!`. -/
def xar_magic : List Byte := [0x78, 0x61, 0x72, 0x21]

/-- Lines 243-245 of `main`: the header is zeroed (`memset`) and then overwritten by what
`fread` delivers. Returns the memory image of the struct, `nb_read` and the stream. -/
def main_read_header (file : FILE) : List Byte × Nat × FILE :=
  let r := fread sizeof_XipHeader file
  (r.1 ++ List.replicate (sizeof_XipHeader - r.1.length) 0, r.1.length, r.2)

/-- Lines 253-257 of `main`: every multi-byte field is byte-swapped in place. -/
def main_bswap (header : XipHeader) : XipHeader :=
  { header with
    header_size := __bswap_16 header.header_size
    xar_version := __bswap_16 header.xar_version
    toc_size_compressed := __bswap_64 header.toc_size_compressed
    toc_size_uncompressed := __bswap_64 header.toc_size_uncompressed
    checksum_algo := __bswap_32 header.checksum_algo }

/-- The header that lines 243-245 and 253-257 of `main` produce from a freshly opened stream,
the signature test of line 247 left aside. -/
def main_decode (file : FILE) : XipHeader :=
  main_bswap (XipHeader.ofMemory (main_read_header file).1)

/-- Lines 242-257 of `main` on a freshly opened stream: `none` when the signature test of
line 247 fails, otherwise the header with its fields converted to host order. -/
def main_header (file : FILE) : Option XipHeader :=
  let r := main_read_header file
  if r.2.1 < 4 ∨ r.1.take 4 ≠ xar_magic then none
  else some (main_decode file)

/-! ## zlib (lines 34-60) -/

/-- Return code `Z_OK`. -/
def Z_OK : Int := 0
/-- Return code `Z_STREAM_END`. -/
def Z_STREAM_END : Int := 1
/-- Return code `Z_NEED_DICT`. -/
def Z_NEED_DICT : Int := 2
/-- Return code `Z_DATA_ERROR`. -/
def Z_DATA_ERROR : Int := -3
/-- Return code `Z_BUF_ERROR`. -/
def Z_BUF_ERROR : Int := -5

/-- What one call of zlib's `inflate` leaves behind: its return code, the bytes it stored at
`next_out` and the value of `avail_in` (input bytes it did not consume). -/
structure InflateResult where
  ret : Int
  out : List Byte
  avail_in : Nat
deriving DecidableEq

/-- The zlib library as the program uses it: the return code of `inflateInit`, the function
`inflate(&strm, Z_NO_FLUSH)` of the input (`next_in`, `avail_in`) and of `avail_out`, and the
return code of `inflateEnd`. -/
structure Zlib where
  inflateInit : Int
  inflate : List Byte → Nat → InflateResult
  inflateEnd : Int

/-- The function `ZlibUncompress` (lines 34-60). `inp` is the buffer `in` of `in_size` bytes,
`out` the buffer of `out_size` bytes as it is before the call; the result is the return value
and the buffer `out` after the call. The fields `avail_in` and `avail_out` of `z_stream` are
32 bits wide. -/
def ZlibUncompress (z : Zlib) (inp : List Byte) (out : List Byte) : Bool × List Byte :=
  let avail_in := inp.length % 2 ^ 32
  let avail_out := out.length % 2 ^ 32
  if z.inflateInit ≠ Z_OK then (false, out)
  else
    let r := z.inflate (inp.take avail_in) avail_out
    let out1 := (r.out ++ out.drop r.out.length).take out.length
    if r.ret ≠ Z_STREAM_END then (false, out1)
    else (decide (z.inflateEnd = Z_OK), out1)

/-! ## Output files (lines 77-123) -/

/-- The files created so far, oldest first, each with the bytes written to it. -/
abbrev Disk := List (String × List Byte)

/-- The function `SaveToFile` (lines 77-87); `canCreate` tells whether `fopen(path, "wb+")`
succeeds. -/
def SaveToFile (canCreate : String → Bool) (disk : Disk) (filepath : String)
    (data : List Byte) : Bool × Disk :=
  if canCreate filepath then (true, disk ++ [(filepath, data)]) else (false, disk)

/-- The value of `sizeof(buffer)` for `char* buffer[2048]` (line 104): 2048 pointers. -/
def sizeof_buffer : Nat := 2048 * 8

/-- The loop of lines 107-119. `fuel` bounds the number of iterations, `size` and
`size_to_read` are the loop variables, `out` is what has been written to `out_stream`.
Every iteration that does not leave the loop lowers `size` by at least one, so `fuel = size`
is never used up (see `copy_loop_fuel`). -/
def copy_loop : Nat → Nat → Nat → FILE → List Byte → FILE × List Byte
  | 0, _, _, file_stream, out => (file_stream, out)
  | fuel + 1, size, size_to_read, file_stream, out =>
    if size = 0 then (file_stream, out)
    else
      let size_to_read := if size_to_read > size then size else size_to_read
      let r := fread size_to_read file_stream
      let nb_read := r.1.length
      if nb_read ≠ size_to_read then (r.2, out)
      else copy_loop fuel (size - nb_read) size_to_read r.2 (out ++ r.1)

/-- The function `SaveFileStreamToFile` (lines 89-123): the return value, the input stream
afterwards and the disk afterwards. When `fseek` fails the output file has already been
created and stays empty. -/
def SaveFileStreamToFile (canCreate : String → Bool) (disk : Disk) (filepath : String)
    (file_stream : FILE) (offset : Nat) (size : Nat) : Bool × FILE × Disk :=
  if ¬ canCreate filepath then (false, file_stream, disk)
  else
    let s := fseek file_stream (to_long offset)
    if s.1 ≠ 0 then (false, s.2, disk ++ [(filepath, [])])
    else
      let r := copy_loop size size sizeof_buffer s.2 []
      (true, r.1, disk ++ [(filepath, r.2)])

/-! ## The table of contents (lines 28-32 and 125-218) -/

/-- The struct `XarFile` (lines 28-32). -/
structure XarFile where
  name : String
  offset : Nat
  size : Nat
deriving DecidableEq

/-- A libxml2 tree node, reduced to the fields the program reads: `name` (a null pointer for
the node kinds libxml2 leaves unnamed, such as CDATA sections), `content` (a null pointer for
element nodes, the text for text-like nodes) and the list reached through `children` and then
`next`. -/
inductive xmlNode where
  | mk (name : Option String) (content : Option String) (children : List xmlNode)

/-- The field `name` of a node; `none` is the null pointer. -/
def xmlNode.name : xmlNode → Option String
  | .mk n _ _ => n

/-- The field `content` of a node; `none` is the null pointer. -/
def xmlNode.content : xmlNode → Option String
  | .mk _ c _ => c

/-- The field `children` of a node together with the `next` chain of that first child. -/
def xmlNode.children : xmlNode → List xmlNode
  | .mk _ _ cs => cs

/-- A libxml2 document: the nodes reached from `doc->children`. -/
structure xmlDoc where
  children : List xmlNode

/-- The C library's `isspace` in the C locale. -/
def isspace (c : Char) : Bool :=
  c = ' ' || c = '\t' || c = '\n' || c = '\r' || c.toNat = 11 || c.toNat = 12

/-- The C library's `isdigit`. -/
def isdigit (c : Char) : Bool := decide (48 ≤ c.toNat ∧ c.toNat ≤ 57)

/-- The value of the longest run of decimal digits at the head of `s`, continuing from `acc`. -/
def digits_value : List Char → Nat → Nat
  | [], acc => acc
  | c :: cs, acc => if isdigit c then digits_value cs (acc * 10 + (c.toNat - 48)) else acc

/-- The constant `LONG_MAX`. -/
def LONG_MAX : Int := 2 ^ 63 - 1

/-- The constant `LONG_MIN`. -/
def LONG_MIN : Int := -(2 ^ 63)

/-- The conversion `strtol(s, NULL, 10)` on the characters after the leading white space:
an optional sign, then digits; the value saturates at the bounds of `long`. -/
def strtol_signed : List Char → Int
  | '-' :: r => max (-(digits_value r 0 : Int)) LONG_MIN
  | '+' :: r => min (digits_value r 0 : Int) LONG_MAX
  | r => min (digits_value r 0 : Int) LONG_MAX

/-- The C library's `atol` as glibc implements it (`strtol(s, NULL, 10)`). -/
def atol (s : String) : Int := strtol_signed (s.toList.dropWhile isspace)

/-- The first loop of `ParseNodeFile` (lines 140-156) from the node `node` on: the state is
`xar_file`, `is_name_init` and `data_node`. The result `none` is `strcmp` on a null name or
the construction of a `std::string` from a null `content` pointer. -/
def ParseNodeFile_scan_file :
    List xmlNode → XarFile → Bool → Option xmlNode → Option (XarFile × Bool × Option xmlNode)
  | [], xar_file, is_name_init, data_node => some (xar_file, is_name_init, data_node)
  | node :: next, xar_file, is_name_init, data_node =>
    match node.children with
    | [] => ParseNodeFile_scan_file next xar_file is_name_init data_node
    | first :: _ =>
      match node.name with
      | none => none
      | some node_name =>
        if node_name = "name" then
          match first.content with
          | none => none
          | some node_content =>
            ParseNodeFile_scan_file next { xar_file with name := node_content } true data_node
        else if node_name = "data" then
          ParseNodeFile_scan_file next xar_file is_name_init (some node)
        else ParseNodeFile_scan_file next xar_file is_name_init data_node

/-- The second loop of `ParseNodeFile` (lines 161-178): the state is `xar_file`,
`is_offset_init` and `is_size_init`. The result `none` is `strcmp` on a null name or `atol`
of a null pointer. -/
def ParseNodeFile_scan_data :
    List xmlNode → XarFile → Bool → Bool → Option (XarFile × Bool × Bool)
  | [], xar_file, is_offset_init, is_size_init => some (xar_file, is_offset_init, is_size_init)
  | node :: next, xar_file, is_offset_init, is_size_init =>
    match node.children with
    | [] => ParseNodeFile_scan_data next xar_file is_offset_init is_size_init
    | first :: _ =>
      match node.name with
      | none => none
      | some node_name =>
        if node_name = "offset" then
          match first.content with
          | none => none
          | some node_content =>
            ParseNodeFile_scan_data next
              { xar_file with offset := to_uint64 (atol node_content) } true is_size_init
        else if node_name = "length" then
          match first.content with
          | none => none
          | some node_content =>
            ParseNodeFile_scan_data next
              { xar_file with size := to_uint64 (atol node_content) } is_offset_init true
        else ParseNodeFile_scan_data next xar_file is_offset_init is_size_init

/-- The function `ParseNodeFile` (lines 125-181): the return value and `*xar_file` afterwards;
`none` when the process dies on a null pointer. -/
def ParseNodeFile (file_node : xmlNode) (xar_file : XarFile) : Option (Bool × XarFile) :=
  match ParseNodeFile_scan_file file_node.children xar_file false none with
  | none => none
  | some (xar_file, is_name_init, data_node) =>
    match is_name_init, data_node with
    | true, some data =>
      match ParseNodeFile_scan_data data.children xar_file false false with
      | none => none
      | some (xar_file, is_offset_init, is_size_init) =>
        some (is_offset_init && is_size_init, xar_file)
    | _, _ => some (false, xar_file)

/-- The loop of `ParseTableOfContents` (lines 207-214) from the node `node` on; the state is
the variable `xar_file`, which lives across iterations, and `result`. The result `none` is
`strcmp` on a null name or a null pointer met inside `ParseNodeFile`. -/
def ParseTableOfContents_loop : List xmlNode → XarFile → List XarFile → Option (List XarFile)
  | [], _, result => some result
  | node :: next, xar_file, result =>
    match node.name with
    | none => none
    | some node_name =>
      if node_name = "file" then
        match ParseNodeFile node xar_file with
        | none => none
        | some (true, xar_file) => ParseTableOfContents_loop next xar_file (result ++ [xar_file])
        | some (false, xar_file) => ParseTableOfContents_loop next xar_file result
      else ParseTableOfContents_loop next xar_file result

/-- The default-constructed `struct XarFile xar_file` of line 206. Its integer fields are
indeterminate in C; they are never read before `ParseNodeFile` has assigned them. -/
def XarFile.fresh : XarFile := { name := "", offset := 0, size := 0 }

/-- The function `ParseTableOfContents` (lines 183-218). `xmlReadMemory` is the libxml2 parser
(`none` is the null document); the result `none` is a null-pointer dereference: a document
without a child, a first node without a child, or one inside `ParseNodeFile`. -/
def ParseTableOfContents (xmlReadMemory : List Byte → Option xmlDoc) (toc_xml : List Byte) :
    Option (List XarFile) :=
  match xmlReadMemory toc_xml with
  | none => some []
  | some doc =>
    match doc.children with
    | [] => none
    | xar_node :: _ =>
      match xar_node.children with
      | [] => none
      | toc_node :: _ => ParseTableOfContents_loop toc_node.children XarFile.fresh []

/-! ## The program (lines 220-312) -/

/-- Everything outside the program that a run depends on: zlib, the libxml2 parser, whether an
output file can be created, and the bytes found in freshly allocated memory. -/
structure World where
  zlib : Zlib
  xmlReadMemory : List Byte → Option xmlDoc
  canCreate : String → Bool
  uninit : Nat → Byte

/-- The expression `new uint8_t[n]`: `n` bytes of indeterminate content. -/
def new_uint8 (w : World) (n : Nat) : List Byte := (List.range n).map w.uninit

/-- The observable outcome of a run of `main`. `status` is the exit status (`none`: killed by a
null-pointer dereference), `toc_read` tells whether the `fread` of the compressed TOC
(line 273) was executed, `disk` lists the files created, `stdout` the progress lines and
`fatal` what `main` and `InvalidXipFile` wrote to stderr. -/
structure Run where
  status : Option Int
  toc_read : Bool
  disk : Disk
  stdout : List String
  fatal : List String
deriving DecidableEq

/-- A fatal exit through `InvalidXipFile` (lines 220-224) after the message `msg`. -/
def InvalidXipFile (msg : String) (toc_read : Bool) : Run :=
  { status := some 1, toc_read := toc_read, disk := [], stdout := [],
    fatal := [msg, "Error: Invalid XIP file\n"] }

/-- The body of the loop of `main` (lines 295-307) for one entry: the success flag, the input
stream and the disk afterwards, and the line printed. -/
def main_extract (w : World) (outdir : String) (header : XipHeader) (xar_file : XarFile)
    (file : FILE) (disk : Disk) : Bool × FILE × Disk × String :=
  let savepath := outdir ++ xar_file.name
  let offset := (header.header_size + header.toc_size_compressed + xar_file.offset) % 2 ^ 64
  let r := SaveFileStreamToFile w.canCreate disk savepath file offset xar_file.size
  (r.1, r.2.1, r.2.2, savepath ++ "\t" ++ (if r.1 then "done\n" else "error\n"))

/-- The loop of `main` over the parsed entries (lines 294-308). -/
def main_loop (w : World) (outdir : String) (header : XipHeader) :
    List XarFile → FILE → Disk → List String → FILE × Disk × List String
  | [], file, disk, stdout => (file, disk, stdout)
  | xar_file :: rest, file, disk, stdout =>
    let r := main_extract w outdir header xar_file file disk
    main_loop w outdir header rest r.2.1 r.2.2.1 (stdout ++ [r.2.2.2])

/-- The function `main` from line 241 on: `content` is the content of the archive that line 233
opened and `outdir` the directory `CreateXipDirectory` returned. -/
def main (w : World) (outdir : String) (content : List Byte) : Run :=
  let file : FILE := { data := content, pos := 0 }
  match main_header file with
  | none => InvalidXipFile "Invalid XAR signature\n" false
  | some header =>
    let s := fseek (main_read_header file).2.2 (header.header_size : Int)
    if s.1 ≠ 0 then InvalidXipFile "Header size is invalid\n" false
    else if header.toc_size_compressed = 0 ∨ header.toc_size_compressed > MAX_TOC_SIZE
        ∨ header.toc_size_uncompressed > MAX_TOC_SIZE then
      InvalidXipFile "Table of Contents invalid size\n" false
    else
      let t := fread header.toc_size_compressed s.2
      if t.1.length < header.toc_size_compressed then
        InvalidXipFile "Can't read the Table of Contents\n" true
      else
        let toc_size := header.toc_size_uncompressed
        let u := ZlibUncompress w.zlib t.1 (new_uint8 w toc_size)
        if ¬ u.1 then InvalidXipFile "Can't uncompress the Table of Contents\n" true
        else
          let d := SaveToFile w.canCreate [] (outdir ++ "xip_toc.xml") u.2
          match ParseTableOfContents w.xmlReadMemory u.2 with
          | none => { status := none, toc_read := true, disk := d.2, stdout := [], fatal := [] }
          | some files =>
            let r := main_loop w outdir header files t.2 d.2 []
            { status := some 0, toc_read := true, disk := r.2.1, stdout := r.2.2, fatal := [] }

/-! ## A concrete zlib for streams of stored blocks -/

/-- The Adler-32 checksum of RFC 1950. -/
def adler32 (data : List Byte) : Nat :=
  let s := data.foldl
    (fun (s : Nat × Nat) (b : Byte) => ((s.1 + b.val) % 65521, (s.2 + (s.1 + b.val) % 65521) % 65521))
    (1, 0)
  s.2 * 65536 + s.1

/-- The deflate data of a zlib stream (RFC 1951) made of stored blocks, as `inflate` processes
it in one call: `left` is the room left at `next_out` and `out` what has been stored there.
A stored block is copied as far as input and room allow; the end of the stream is reached
once the final block is copied and the Adler-32 trailer matches. Blocks with Huffman codes
are outside this model and are answered like a block of invalid type. -/
def inflate_stored_blocks : Nat → List Byte → Nat → List Byte → InflateResult
  | 0, inp, _, out => { ret := Z_BUF_ERROR, out := out, avail_in := inp.length }
  | fuel + 1, inp, left, out =>
    match inp with
    | hdr :: l0 :: l1 :: n0 :: n1 :: body =>
      if hdr.val / 2 % 4 ≠ 0 then { ret := Z_DATA_ERROR, out := out, avail_in := inp.length - 1 }
      else if l0.val + 256 * l1.val + (n0.val + 256 * n1.val) ≠ 65535 then
        { ret := Z_DATA_ERROR, out := out, avail_in := body.length }
      else
        let len := l0.val + 256 * l1.val
        let copy := min len (min body.length left)
        if copy < len then
          { ret := Z_OK, out := out ++ body.take copy, avail_in := body.length - copy }
        else if hdr.val % 2 = 0 then
          inflate_stored_blocks fuel (body.drop len) (left - len) (out ++ body.take len)
        else
          match body.drop len with
          | a3 :: a2 :: a1 :: a0 :: trailing =>
            if ((a3.val * 256 + a2.val) * 256 + a1.val) * 256 + a0.val
                = adler32 (out ++ body.take len) then
              { ret := Z_STREAM_END, out := out ++ body.take len, avail_in := trailing.length }
            else { ret := Z_DATA_ERROR, out := out ++ body.take len, avail_in := trailing.length }
          | _ => { ret := Z_OK, out := out ++ body.take len, avail_in := 0 }
    | [] => { ret := Z_OK, out := out, avail_in := 0 }
    | hdr :: _ =>
      if hdr.val / 2 % 4 ≠ 0 then { ret := Z_DATA_ERROR, out := out, avail_in := inp.length - 1 }
      else { ret := Z_OK, out := out, avail_in := 0 }

/-- The function `inflate` of zlib on a stream with the two-byte zlib header of RFC 1950
followed by stored blocks, for a stream initialised by `inflateInit` (window of 32 KiB). -/
def inflate_stored (inp : List Byte) (avail_out : Nat) : InflateResult :=
  match inp with
  | [] => { ret := Z_BUF_ERROR, out := [], avail_in := 0 }
  | [_] => { ret := Z_OK, out := [], avail_in := 0 }
  | cmf :: flg :: rest =>
    if (cmf.val * 256 + flg.val) % 31 ≠ 0 then
      { ret := Z_DATA_ERROR, out := [], avail_in := rest.length }
    else if cmf.val % 16 ≠ 8 then { ret := Z_DATA_ERROR, out := [], avail_in := rest.length }
    else if cmf.val / 16 > 7 then { ret := Z_DATA_ERROR, out := [], avail_in := rest.length }
    else if flg.val / 32 % 2 = 1 then { ret := Z_NEED_DICT, out := [], avail_in := rest.length }
    else inflate_stored_blocks rest.length rest avail_out []

/-- A zlib whose initialisation and release succeed and that inflates stored blocks. -/
def zlib_stored : Zlib :=
  { inflateInit := Z_OK, inflate := inflate_stored, inflateEnd := Z_OK }

/-! ## Specification-side definitions -/

/-- The big-endian value of the `n` bytes at offset `off`. -/
def bigEndianAt (mem : List Byte) (off : Nat) : Nat → Nat
  | 0 => 0
  | n + 1 => byteAt mem off * 256 ^ n + bigEndianAt mem (off + 1) n

/-- The text of an element: the content of its first child node. -/
def text_of (node : xmlNode) : Option String :=
  match node.children with
  | [] => none
  | first :: _ => first.content

/-- Whether `node` is named `tag` and has at least one child. -/
def is_filled (tag : String) (node : xmlNode) : Bool :=
  decide (node.name = some tag) && !node.children.isEmpty

/-- The last node of `nodes` that is named `tag` and has a child. -/
def last_child (tag : String) (nodes : List xmlNode) : Option xmlNode :=
  nodes.reverse.find? (is_filled tag)

/-- Whether every node of `nodes` that has a child has a name and, when that name is one of
`tags`, starts with a node carrying text (a non-null `content`). -/
def texted (tags : List String) (nodes : List xmlNode) : Bool :=
  nodes.all fun c =>
    match c.children, c.name with
    | [], _ => true
    | _ :: _, none => false
    | first :: _, some name => !(tags.contains name) || first.content.isSome

/-- Whether a `file` element keeps `ParseNodeFile` away from null pointers: its children with
content are named, and so are those of its `data` children; its `name` children and the
`offset` and `length` children of its `data` children start with text. -/
def no_null_text (file_node : xmlNode) : Bool :=
  texted ["name"] file_node.children &&
    file_node.children.all fun d =>
      !(decide (d.name = some "data")) || texted ["offset", "length"] d.children

/-- Whether a child of the `toc` element keeps the loop of `ParseTableOfContents` away from
null pointers: it has a name and, if it is a `file` element, satisfies `no_null_text`. -/
def toc_child_safe (node : xmlNode) : Bool :=
  node.name.isSome && (!(decide (node.name = some "file")) || no_null_text node)

/-- The entry a `file` element describes: the text of its `name` child, and the numbers in the
`offset` and `length` children of its `data` child; of several children with one name the last
one with content counts. Without one of them there is no entry. -/
def entry_of_file (file_node : xmlNode) : Option XarFile :=
  match (last_child "name" file_node.children).bind text_of,
        last_child "data" file_node.children with
  | some name, some data =>
    match (last_child "offset" data.children).bind text_of,
          (last_child "length" data.children).bind text_of with
    | some offset, some length =>
      some { name := name, offset := to_uint64 (atol offset), size := to_uint64 (atol length) }
    | _, _ => none
  | _, _ => none

/-- The entry a child of the `toc` element contributes: that of a `file` element, none for any
other node. -/
def entry_of_node (node : xmlNode) : Option XarFile :=
  if node.name = some "file" then entry_of_file node else none

/-- The unsigned integer written in `s`: defined when `s` is a non-empty string of decimal
digits. -/
def decimal_value (s : String) : Option Nat :=
  if s.toList ≠ [] ∧ s.toList.all isdigit = true then
    some (s.toList.foldl (fun acc c => acc * 10 + (c.toNat - 48)) 0)
  else none

/-- Whether `node` has a direct child named `tag` with text content. -/
def has_text_child (tag : String) (node : xmlNode) : Bool :=
  node.children.any fun c => decide (c.name = some tag) && (text_of c).isSome

/-- The acceptance condition in the words of the specification: a direct `name` child with text
and a direct `data` child that has a direct `offset` and a direct `length` child with text. -/
def claimed_accept (file_node : xmlNode) : Bool :=
  has_text_child "name" file_node &&
    file_node.children.any fun d =>
      decide (d.name = some "data") && has_text_child "offset" d && has_text_child "length" d

/-! ## Sample documents and archives -/

/-- A text node. -/
def text_node (s : String) : xmlNode := .mk (some "text") (some s) []

/-- An element node. -/
def element (name : String) (children : List xmlNode) : xmlNode :=
  .mk (some name) none children

/-- The element `<file><name>A</name><data><offset>0</offset><length>5</length></data>
<data><offset>7</offset></data></file>` (written here on two lines). -/
def two_data_file : xmlNode :=
  element "file"
    [element "name" [text_node "A"],
     element "data" [element "offset" [text_node "0"], element "length" [text_node "5"]],
     element "data" [element "offset" [text_node "7"]]]

/-- The element `<file><data><offset>o</offset><length>n</length></data><name>name</name>
</file>` of the TOC schema. -/
def file_element (name offset length : String) : xmlNode :=
  element "file"
    [element "data" [element "offset" [text_node offset], element "length" [text_node length]],
     element "name" [text_node name]]

/-- The result the specification promises for a parsed document: the entries of the `file`
children of the `toc` child of the root, wherever that child stands among the root's children. -/
def claimed_entries (doc : xmlDoc) : Option (List XarFile) :=
  match doc.children with
  | [] => none
  | root :: _ =>
    (root.children.find? fun c => decide (c.name = some "toc")).map
      fun toc => toc.children.filterMap entry_of_node

/-- A document whose first `file` element contains a nested `file` element. -/
def nested_doc : xmlDoc :=
  { children := [element "xar" [element "toc"
      [element "file"
        [element "data" [element "offset" [text_node "0"], element "length" [text_node "5"]],
         element "name" [text_node "A"],
         file_element "C" "1" "2"],
       text_node "\n",
       file_element "B" "5" "3"]]] }

/-- The bytes of an ASCII string. -/
def ascii (s : String) : List Byte :=
  s.toList.map fun c => ⟨c.toNat % 256, Nat.mod_lt _ (by decide)⟩

/-- A TOC laid out as the comment of lines 185-192 draws it: `toc` on a line of its own inside
`xar`, every `file` element on a line of its own inside `toc`. -/
def indented_toc_text : String :=
  "<xar>\n  <toc>\n"
    ++ "    <file><data><offset>0</offset><length>5</length></data><name>A</name></file>\n"
    ++ "    <file><data><offset>5</offset><length>3</length></data><name>B</name></file>\n"
    ++ "  </toc>\n</xar>"

/-- The tree libxml2 builds for `indented_toc_text`: the white space between the tags is kept
as text nodes, so the first child of `xar` is a text node and `toc` is its second child. -/
def indented_doc : xmlDoc :=
  { children := [element "xar"
      [text_node "\n  ",
       element "toc"
         [text_node "\n    ", file_element "A" "0" "5",
          text_node "\n    ", file_element "B" "5" "3",
          text_node "\n  "],
       text_node "\n"]] }

/-- The libxml2 parser on the input `indented_toc_text`. -/
def indented_xmlReadMemory (toc_xml : List Byte) : Option xmlDoc :=
  if toc_xml = ascii indented_toc_text then some indented_doc else none

/-- A zlib stream (RFC 1950) that holds `data`, at most 65535 bytes, in one final stored block
followed by its Adler-32 checksum. -/
def zlib_store (data : List Byte) : List Byte :=
  [0x78, 0x01, 0x01,
    ⟨data.length % 256, Nat.mod_lt _ (by decide)⟩,
    ⟨data.length / 256 % 256, Nat.mod_lt _ (by decide)⟩,
    ⟨(65535 - data.length) % 256, Nat.mod_lt _ (by decide)⟩,
    ⟨(65535 - data.length) / 256 % 256, Nat.mod_lt _ (by decide)⟩]
  ++ data ++
  [⟨adler32 data / 2 ^ 24 % 256, Nat.mod_lt _ (by decide)⟩,
   ⟨adler32 data / 2 ^ 16 % 256, Nat.mod_lt _ (by decide)⟩,
   ⟨adler32 data / 2 ^ 8 % 256, Nat.mod_lt _ (by decide)⟩,
   ⟨adler32 data % 256, Nat.mod_lt _ (by decide)⟩]

/-- A 28-byte archive header with `header_size = 28`, version 1 and the given TOC sizes (each
below 65536). -/
def header_bytes (toc_size_compressed toc_size_uncompressed : Nat) : List Byte :=
  [0x78, 0x61, 0x72, 0x21, 0x00, 0x1C, 0x00, 0x01,
   0, 0, 0, 0, 0, 0,
   ⟨toc_size_compressed / 256 % 256, Nat.mod_lt _ (by decide)⟩,
   ⟨toc_size_compressed % 256, Nat.mod_lt _ (by decide)⟩,
   0, 0, 0, 0, 0, 0,
   ⟨toc_size_uncompressed / 256 % 256, Nat.mod_lt _ (by decide)⟩,
   ⟨toc_size_uncompressed % 256, Nat.mod_lt _ (by decide)⟩,
   0, 0, 0, 0]

/-- The TOC of the sample archive: entries `A` (offset 0, length 5) and `B` (offset 5,
length 3). -/
def sample_toc_text : String :=
  "<xar><toc><file><data><offset>0</offset><length>5</length></data><name>A</name></file>"
    ++ "<file><data><offset>5</offset><length>3</length></data><name>B</name></file></toc></xar>"

/-- The tree libxml2 builds for `sample_toc_text`. -/
def sample_doc : xmlDoc :=
  { children := [element "xar" [element "toc"
      [file_element "A" "0" "5", file_element "B" "5" "3"]]] }

/-- An archive: header, the TOC as a stored zlib stream (185 bytes for 174 bytes of text) and
the heap `HELLOxyz`, which starts at byte 213. -/
def sample_archive : List Byte :=
  header_bytes 185 174 ++ zlib_store (ascii sample_toc_text) ++ ascii "HELLOxyz"

/-- A TOC whose entry `A` announces 50 bytes, whose entry `N` has the offset `-300` and whose
entry `B` (offset 5, length 3) is sound. -/
def greedy_toc_text : String :=
  "<xar><toc><file><data><offset>0</offset><length>50</length></data><name>A</name></file>"
    ++ "<file><data><offset>-300</offset><length>3</length></data><name>N</name></file>"
    ++ "<file><data><offset>5</offset><length>3</length></data><name>B</name></file></toc></xar>"

/-- The tree libxml2 builds for `greedy_toc_text`. -/
def greedy_doc : xmlDoc :=
  { children := [element "xar" [element "toc"
      [file_element "A" "0" "50", file_element "N" "-300" "3", file_element "B" "5" "3"]]] }

/-- An archive with the TOC `greedy_toc_text` (a stored zlib stream of 265 bytes for 254 bytes
of text) and the heap `HELLOxyz`, which starts at byte 293. -/
def greedy_archive : List Byte :=
  header_bytes 265 254 ++ zlib_store (ascii greedy_toc_text) ++ ascii "HELLOxyz"

/-- A world for the examples: zlib inflates stored blocks, libxml2 parses `sample_toc_text` and
`greedy_toc_text` and refuses every other input used here, every output file can be created
and fresh memory holds zeros. -/
def sample_world : World :=
  { zlib := zlib_stored
    xmlReadMemory := fun b =>
      if b = ascii sample_toc_text then some sample_doc
      else if b = ascii greedy_toc_text then some greedy_doc
      else none
    canCreate := fun _ => true
    uninit := fun _ => 0 }

/-- The header `main` decodes from `sample_archive`. -/
def sample_header : XipHeader :=
  { signature := 0x21726178, header_size := 28, xar_version := 1, toc_size_compressed := 185,
    toc_size_uncompressed := 174, checksum_algo := 0 }

/-- An archive whose TOC inflates to exactly the three announced bytes `ABC`, which are not an
XML document. -/
def not_xml_archive : List Byte :=
  header_bytes 14 3 ++ zlib_store (ascii "ABC") ++ ascii "HELLOxyz"

theorem byteAt_lt (mem : List Byte) (i : Nat) : byteAt mem i < 256 := by
  unfold byteAt; exact (mem.getD i 0).isLt

theorem byteAt_take (mem : List Byte) (n i : Nat) (h : i < n) :
    byteAt (mem.take n) i = byteAt mem i := by
  simp [byteAt, List.getD_eq_getElem?_getD, List.getElem?_take, h]

theorem peel_mod (a y : Nat) (ha : a < 256) : (a + 256 * y) % 256 = a := by omega

theorem peel_div (a y : Nat) (ha : a < 256) : (a + 256 * y) / 256 = y := by omega

theorem bswap_16_arith (a b : Nat) (ha : a < 256) (hb : b < 256) :
    __bswap_16 (a + 256 * b) = 256 * a + b := by
  simp only [__bswap_16]; omega

theorem bswap_32_arith (a b c d : Nat) (ha : a < 256) (hb : b < 256) (hc : c < 256)
    (hd : d < 256) :
    __bswap_32 (a + 256 * (b + 256 * (c + 256 * d)))
      = a * 2 ^ 24 + b * 2 ^ 16 + c * 2 ^ 8 + d := by
  simp only [__bswap_32]; norm_num; omega

theorem bswap_64_arith (a b c d e f g h : Nat) (ha : a < 256) (hb : b < 256) (hc : c < 256)
    (hd : d < 256) (he : e < 256) (hf : f < 256) (hg : g < 256) (hh : h < 256) :
    __bswap_64 (a + 256 * (b + 256 * (c + 256 * (d + 256 * (e + 256 * (f + 256 * (g + 256 * h)))))))
      = a * 2 ^ 56 + b * 2 ^ 48 + c * 2 ^ 40 + d * 2 ^ 32 + e * 2 ^ 24 + f * 2 ^ 16
        + g * 2 ^ 8 + h := by
  have p8 : (2 : Nat) ^ 8 = 256 := by norm_num
  have p16 : (2 : Nat) ^ 16 = 256 * 256 := by norm_num
  have p24 : (2 : Nat) ^ 24 = 256 * 256 * 256 := by norm_num
  have p32 : (2 : Nat) ^ 32 = 256 * 256 * 256 * 256 := by norm_num
  have p40 : (2 : Nat) ^ 40 = 256 * 256 * 256 * 256 * 256 := by norm_num
  have p48 : (2 : Nat) ^ 48 = 256 * 256 * 256 * 256 * 256 * 256 := by norm_num
  have p56 : (2 : Nat) ^ 56 = 256 * 256 * 256 * 256 * 256 * 256 * 256 := by norm_num
  unfold __bswap_64
  rw [p8, p16, p24, p32, p40, p48, p56]
  simp only [← Nat.div_div_eq_div_mul, peel_div _ _ ha, peel_div _ _ hb, peel_div _ _ hc,
    peel_div _ _ hd, peel_div _ _ he, peel_div _ _ hf, peel_div _ _ hg, peel_mod _ _ ha,
    peel_mod _ _ hb, peel_mod _ _ hc, peel_mod _ _ hd, peel_mod _ _ he, peel_mod _ _ hf,
    peel_mod _ _ hg, Nat.mod_eq_of_lt hh]

theorem bswap_16_loadLE (mem : List Byte) (off : Nat) :
    __bswap_16 (loadLE mem off 2) = 256 * byteAt mem off + byteAt mem (off + 1) := by
  simp only [loadLE, Nat.mul_zero, Nat.add_zero]
  exact bswap_16_arith _ _ (byteAt_lt _ _) (byteAt_lt _ _)

theorem bswap_32_loadLE (mem : List Byte) (off : Nat) :
    __bswap_32 (loadLE mem off 4) = bigEndianAt mem off 4 := by
  simp only [loadLE, bigEndianAt, Nat.mul_zero, Nat.add_zero]
  rw [bswap_32_arith _ _ _ _ (byteAt_lt _ _) (byteAt_lt _ _) (byteAt_lt _ _) (byteAt_lt _ _)]
  norm_num
  omega

theorem bswap_64_loadLE (mem : List Byte) (off : Nat) :
    __bswap_64 (loadLE mem off 8) = bigEndianAt mem off 8 := by
  simp only [loadLE, bigEndianAt, Nat.mul_zero, Nat.add_zero]
  rw [bswap_64_arith _ _ _ _ _ _ _ _ (byteAt_lt _ _) (byteAt_lt _ _) (byteAt_lt _ _)
    (byteAt_lt _ _) (byteAt_lt _ _) (byteAt_lt _ _) (byteAt_lt _ _) (byteAt_lt _ _)]
  norm_num
  omega

theorem loadLE_take (mem : List Byte) (m : Nat) :
    ∀ (n off : Nat), off + n ≤ m → loadLE (mem.take m) off n = loadLE mem off n := by
  intro n
  induction n with
  | zero => intro off _; rfl
  | succ k ih =>
    intro off h
    simp only [loadLE]
    rw [byteAt_take mem m off (by omega), ih (off + 1) (by omega)]

theorem main_read_header_full (content : List Byte) (hlen : 28 ≤ content.length) :
    main_read_header { data := content, pos := 0 }
      = (content.take 28, 28, { data := content, pos := 28 }) := by
  have h : (List.take 28 content).length = 28 := by simp [List.length_take]; omega
  simp [main_read_header, fread, sizeof_XipHeader, h]

/-- C2: for every input of at least 28 bytes that starts with `xar!`, the header `main` decodes
holds the big-endian integers found at the fixed offsets 4, 6, 8, 16 and 24. -/
theorem main_header_big_endian (content : List Byte) (hlen : 28 ≤ content.length)
    (hsig : content.take 4 = xar_magic) :
    ∃ header : XipHeader, main_header { data := content, pos := 0 } = some header
      ∧ header.header_size = 256 * byteAt content 4 + byteAt content 5
      ∧ header.xar_version = 256 * byteAt content 6 + byteAt content 7
      ∧ header.toc_size_compressed = bigEndianAt content 8 8
      ∧ header.toc_size_uncompressed = bigEndianAt content 16 8
      ∧ header.checksum_algo = bigEndianAt content 24 4 := by
  have htake : (content.take 28).take 4 = xar_magic := by
    rw [List.take_take]; simpa using hsig
  refine ⟨main_bswap (XipHeader.ofMemory (content.take 28)), ?_, ?_, ?_, ?_, ?_, ?_⟩
  · simp [main_header, main_decode, main_read_header_full content hlen, htake]
  · simp only [main_bswap, XipHeader.ofMemory]
    rw [loadLE_take _ _ _ _ (by omega), bswap_16_loadLE]
  · simp only [main_bswap, XipHeader.ofMemory]
    rw [loadLE_take _ _ _ _ (by omega), bswap_16_loadLE]
  · simp only [main_bswap, XipHeader.ofMemory]
    rw [loadLE_take _ _ _ _ (by omega), bswap_64_loadLE]
  · simp only [main_bswap, XipHeader.ofMemory]
    rw [loadLE_take _ _ _ _ (by omega), bswap_64_loadLE]
  · simp only [main_bswap, XipHeader.ofMemory]
    rw [loadLE_take _ _ _ _ (by omega), bswap_32_loadLE]

/-- Witness for C2: the bytes `0x00 0x1C` in the `header_size` field decode to 28. -/
theorem main_header_big_endian_witness :
    ∃ header : XipHeader, main_header { data := header_bytes 14 3, pos := 0 } = some header
      ∧ header.header_size = 28 := by
  obtain ⟨header, h1, h2, _⟩ := main_header_big_endian (header_bytes 14 3) (by decide) (by decide)
  exact ⟨header, h1, by rw [h2]; decide⟩

/-! ## Fatal header errors (C3, C4) -/

theorem main_header_none (content : List Byte) (h : content.take 4 ≠ xar_magic) :
    main_header { data := content, pos := 0 } = none := by
  unfold main_header
  simp only
  rw [if_pos]
  by_cases hl : content.length < 4
  · left
    simp [main_read_header, fread, List.length_take]
    omega
  · right
    intro hc
    apply h
    rw [← hc]
    simp only [main_read_header, fread, List.drop_zero, sizeof_XipHeader]
    rw [List.take_append_of_le_length (by simp [List.length_take]; omega), List.take_take]
    simp

theorem take_magic_length (content : List Byte) (h : content.take 4 = xar_magic) :
    4 ≤ content.length := by
  have h1 : (content.take 4).length = 4 := by rw [h]; rfl
  rw [List.length_take] at h1
  omega

theorem main_header_valid (content : List Byte) (h : content.take 4 = xar_magic) :
    main_header { data := content, pos := 0 }
      = some (main_decode { data := content, pos := 0 }) := by
  have hl := take_magic_length content h
  unfold main_header
  simp only
  rw [if_neg]
  intro hc
  rcases hc with hc | hc
  · simp [main_read_header, fread, List.length_take, sizeof_XipHeader] at hc
    omega
  · apply hc
    simp only [main_read_header, fread, List.drop_zero, sizeof_XipHeader]
    rw [List.take_append_of_le_length (by simp [List.length_take]; omega), List.take_take]
    simpa using h

theorem fseek_nat (f : FILE) (n : Nat) : fseek f (n : Int) = (0, { f with pos := n }) := by
  simp [fseek]

/-- C4: an input whose first four bytes are not `xar!` (every input shorter than four bytes is
one) ends the run with the invalid-signature error: exit status 1 and nothing written. -/
theorem main_invalid_signature (w : World) (outdir : String) (content : List Byte)
    (h : content.take 4 ≠ xar_magic) :
    main w outdir content
      = { status := some 1, toc_read := false, disk := [], stdout := [],
          fatal := ["Invalid XAR signature\n", "Error: Invalid XIP file\n"] } := by
  unfold main
  simp only [main_header_none content h]
  rfl

/-- Witness for C4: the three-byte input `xar` is too short to carry the signature. -/
theorem main_invalid_signature_witness :
    (main sample_world "out/" (ascii "xar")).status = some 1
      ∧ (main sample_world "out/" (ascii "xar")).disk = [] := by
  rw [main_invalid_signature sample_world "out/" (ascii "xar") (by decide)]
  exact ⟨rfl, rfl⟩

/-- C3: when the decoded `toc_size_compressed` is 0 or exceeds `MAX_TOC_SIZE`, or the decoded
`toc_size_uncompressed` exceeds `MAX_TOC_SIZE`, the run ends with exit status 1, the compressed
TOC is never read and nothing is written; with a valid signature the error reported is the
invalid TOC size. -/
theorem main_invalid_toc_size (w : World) (outdir : String) (content : List Byte)
    (h : (main_decode { data := content, pos := 0 }).toc_size_compressed = 0
        ∨ (main_decode { data := content, pos := 0 }).toc_size_compressed > MAX_TOC_SIZE
        ∨ (main_decode { data := content, pos := 0 }).toc_size_uncompressed > MAX_TOC_SIZE) :
    (main w outdir content).status = some 1
      ∧ (main w outdir content).toc_read = false
      ∧ (main w outdir content).disk = []
      ∧ (main w outdir content).stdout = []
      ∧ (content.take 4 = xar_magic → (main w outdir content).fatal
          = ["Table of Contents invalid size\n", "Error: Invalid XIP file\n"]) := by
  by_cases hsig : content.take 4 = xar_magic
  · have hh := main_header_valid content hsig
    simp only [main, hh, fseek_nat]
    simp [h, InvalidXipFile]
  · simp [main, main_header_none content hsig, InvalidXipFile, hsig]

/-- Witness for C3: a header whose `toc_size_compressed` field is 0. -/
theorem main_invalid_toc_size_witness :
    (main sample_world "out/" (header_bytes 0 3 ++ ascii "HELLOxyz")).status = some 1
      ∧ (main sample_world "out/" (header_bytes 0 3 ++ ascii "HELLOxyz")).toc_read = false
      ∧ (main sample_world "out/" (header_bytes 0 3 ++ ascii "HELLOxyz")).disk = [] :=
  have h := main_invalid_toc_size sample_world "out/" (header_bytes 0 3 ++ ascii "HELLOxyz")
    (Or.inl (by decide))
  ⟨h.1, h.2.1, h.2.2.1⟩

/-! ## Copying a payload (C1, C8, C9) -/

theorem fread_full (n : Nat) (f : FILE) (h : f.pos + n ≤ f.data.length) :
    fread n f = ((f.data.drop f.pos).take n, { f with pos := f.pos + n }) := by
  have hl : ((f.data.drop f.pos).take n).length = n := by
    rw [List.length_take, List.length_drop]; omega
  simp only [fread, hl]

theorem fread_length (n : Nat) (f : FILE) :
    (fread n f).1.length = min n (f.data.length - f.pos) := by
  simp [fread, List.length_take, List.length_drop]

theorem copy_loop_full : ∀ (fuel size size_to_read : Nat) (f : FILE) (out : List Byte),
    size ≤ fuel → 0 < size_to_read → f.pos + size ≤ f.data.length →
    copy_loop fuel size size_to_read f out
      = ({ f with pos := f.pos + size }, out ++ (f.data.drop f.pos).take size) := by
  intro fuel
  induction fuel with
  | zero =>
    intro size str f out hf _ _
    have : size = 0 := by omega
    subst this
    simp [copy_loop]
  | succ fuel ih =>
    intro size str f out hf hs hl
    by_cases h0 : size = 0
    · subst h0; simp [copy_loop]
    · simp only [copy_loop, if_neg h0]
      generalize hstr : (if str > size then size else str) = str1
      have h1 : 0 < str1 ∧ str1 ≤ size := by
        subst hstr; split <;> omega
      rw [fread_full str1 f (by omega)]
      have hl1 : ((f.data.drop f.pos).take str1).length = str1 := by
        rw [List.length_take, List.length_drop]; omega
      simp only [hl1, ne_eq, not_true_eq_false, if_false]
      rw [ih (size - str1) str1 _ _ (by omega) h1.1 (by simp; omega)]
      have hsz : size = str1 + (size - str1) := by omega
      have ht : (f.data.drop f.pos).take size
          = (f.data.drop f.pos).take str1
            ++ (f.data.drop (f.pos + str1)).take (size - str1) := by
        conv_lhs => rw [hsz]
        rw [List.take_add, List.drop_drop]
      simp only [ht, List.append_assoc]
      congr 2
      omega

theorem copy_loop_short : ∀ (fuel size size_to_read : Nat) (f : FILE) (out : List Byte),
    size ≤ fuel → 0 < size_to_read → f.data.length - f.pos < size →
    (copy_loop fuel size size_to_read f out).2
      = out ++ (f.data.drop f.pos).take
          ((f.data.length - f.pos) / size_to_read * size_to_read) := by
  intro fuel
  induction fuel with
  | zero => intro size str f out hf _ hk; omega
  | succ fuel ih =>
    intro size str f out hf hs hk
    have h0 : size ≠ 0 := by omega
    simp only [copy_loop, if_neg h0]
    by_cases hbig : str > size
    · -- the request is the whole remainder, which the file cannot deliver
      simp only [if_pos hbig]
      have hne : (fread size f).1.length ≠ size := by rw [fread_length]; omega
      simp only [if_pos hne]
      have : (f.data.length - f.pos) / str = 0 := Nat.div_eq_of_lt (by omega)
      simp [this]
    · simp only [if_neg hbig]
      by_cases hav : f.data.length - f.pos < str
      · have hne : (fread str f).1.length ≠ str := by rw [fread_length]; omega
        simp only [if_pos hne]
        have : (f.data.length - f.pos) / str = 0 := Nat.div_eq_of_lt hav
        simp [this]
      · rw [fread_full str f (by omega)]
        have hl1 : ((f.data.drop f.pos).take str).length = str := by
          rw [List.length_take, List.length_drop]; omega
        simp only [hl1, ne_eq, not_true_eq_false, if_false]
        rw [ih (size - str) str _ _ (by omega) hs (by simp; omega)]
        simp only
        have hd : (f.data.length - f.pos) / str
            = (f.data.length - (f.pos + str)) / str + 1 := by
          have : f.data.length - f.pos = (f.data.length - (f.pos + str)) + str := by omega
          rw [this, Nat.add_div_right _ hs]
        have hm : ((f.data.length - (f.pos + str)) / str + 1) * str
            = str + (f.data.length - (f.pos + str)) / str * str := by ring
        rw [hd, hm, List.take_add, List.drop_drop, List.append_assoc]

theorem copy_loop_fuel : ∀ (fuel1 fuel2 size size_to_read : Nat) (f : FILE) (out : List Byte),
    size ≤ fuel1 → size ≤ fuel2 → 0 < size_to_read →
    copy_loop fuel1 size size_to_read f out = copy_loop fuel2 size size_to_read f out := by
  intro fuel1
  induction fuel1 with
  | zero =>
    intro fuel2 size str f out h1 _ _
    have : size = 0 := by omega
    subst this
    cases fuel2 <;> simp [copy_loop]
  | succ fuel1 ih =>
    intro fuel2 size str f out h1 h2 hs
    by_cases h0 : size = 0
    · subst h0
      cases fuel2 <;> simp [copy_loop]
    · obtain ⟨fuel2, rfl⟩ : ∃ k, fuel2 = k + 1 := ⟨fuel2 - 1, by omega⟩
      simp only [copy_loop, if_neg h0]
      generalize hstr : (if str > size then size else str) = str1
      have hs1 : 0 < str1 ∧ str1 ≤ size := by
        subst hstr; split <;> omega
      by_cases hr : (fread str1 f).1.length ≠ str1
      · simp only [if_pos hr]
      · simp only [if_neg hr]
        have hr1 : (fread str1 f).1.length = str1 := by simpa using hr
        rw [hr1]
        exact ih fuel2 _ _ _ _ (by omega) (by omega) hs1.1

theorem to_long_small (x : Nat) (h : x < 2 ^ 63) : to_long x = (x : Int) := by
  have h1 : x % 2 ^ 64 = x := Nat.mod_eq_of_lt (by omega)
  unfold to_long
  rw [h1, if_pos h]

theorem SaveFileStreamToFile_full (canCreate : String → Bool) (disk : Disk) (filepath : String)
    (f : FILE) (offset size : Nat) (hcreate : canCreate filepath = true)
    (hoff : offset < 2 ^ 63) (hlen : offset + size ≤ f.data.length) :
    SaveFileStreamToFile canCreate disk filepath f offset size
      = (true, { f with pos := offset + size },
          disk ++ [(filepath, (f.data.drop offset).take size)]) := by
  simp only [SaveFileStreamToFile, hcreate, to_long_small offset hoff, fseek_nat]
  simp only [not_true_eq_false, if_false, ne_eq]
  rw [copy_loop_full size size sizeof_buffer _ _ (le_refl _) (by decide) (by simpa using hlen)]
  simp

theorem SaveFileStreamToFile_short (canCreate : String → Bool) (disk : Disk) (filepath : String)
    (f : FILE) (offset size : Nat) (hcreate : canCreate filepath = true)
    (hoff : offset < 2 ^ 63) (hshort : f.data.length - offset < size) :
    (SaveFileStreamToFile canCreate disk filepath f offset size).1 = true
      ∧ (SaveFileStreamToFile canCreate disk filepath f offset size).2.2
        = disk ++ [(filepath, (f.data.drop offset).take
            ((f.data.length - offset) / sizeof_buffer * sizeof_buffer))] := by
  simp only [SaveFileStreamToFile, hcreate, to_long_small offset hoff, fseek_nat]
  simp only [not_true_eq_false, if_false, ne_eq]
  rw [copy_loop_short size size sizeof_buffer _ _ (le_refl _) (by decide) (by simpa using hshort)]
  simp

/-- C1: when the source holds the whole payload, extracting an entry creates the file named
after it with exactly the `payload_size` source bytes that start at
`header_size + toc_size_compressed + payload_offset`, and reports success. The source is a
regular file (shorter than `2^63` bytes) and the output file can be created. -/
theorem main_extract_copies_payload (w : World) (outdir : String) (header : XipHeader)
    (xar_file : XarFile) (source : List Byte) (pos : Nat) (disk : Disk)
    (hfile : source.length < 2 ^ 63)
    (hcreate : w.canCreate (outdir ++ xar_file.name) = true)
    (hlen : header.header_size + header.toc_size_compressed + xar_file.offset + xar_file.size
      ≤ source.length) :
    main_extract w outdir header xar_file { data := source, pos := pos } disk
      = (true,
         { data := source,
           pos := header.header_size + header.toc_size_compressed + xar_file.offset
             + xar_file.size },
         disk ++ [(outdir ++ xar_file.name,
           (source.drop (header.header_size + header.toc_size_compressed + xar_file.offset)).take
             xar_file.size)],
         outdir ++ xar_file.name ++ "\t" ++ "done\n") := by
  have hmod : (header.header_size + header.toc_size_compressed + xar_file.offset) % 2 ^ 64
      = header.header_size + header.toc_size_compressed + xar_file.offset :=
    Nat.mod_eq_of_lt (by omega)
  simp only [main_extract, hmod]
  rw [SaveFileStreamToFile_full w.canCreate disk _ _ _ _ hcreate (by omega) (by simpa using hlen)]
  simp

/-! ## The TOC parser (C5, C6) -/

theorem last_child_cons (tag : String) (a : xmlNode) (l : List xmlNode) :
    last_child tag (a :: l)
      = (last_child tag l).or (if is_filled tag a then some a else none) := by
  simp only [last_child, List.reverse_cons, List.find?_append]
  congr 1
  by_cases h : is_filled tag a <;> simp [h]

theorem last_child_nil (tag : String) : last_child tag [] = none := rfl

theorem texted_cons (tags : List String) (a : xmlNode) (l : List xmlNode) :
    texted tags (a :: l) = true ↔
      ((∀ first rest, a.children = first :: rest →
          ∃ name, a.name = some name
            ∧ (tags.contains name = true → first.content.isSome = true))
        ∧ texted tags l = true) := by
  simp only [texted, List.all_cons, Bool.and_eq_true]
  constructor
  · rintro ⟨h, hl⟩
    refine ⟨?_, hl⟩
    intro first rest hch
    rw [hch] at h
    cases hn : a.name with
    | none => rw [hn] at h; exact absurd h (by simp)
    | some name =>
      rw [hn] at h
      refine ⟨name, rfl, ?_⟩
      intro hc
      simp only [Bool.or_eq_true, Bool.not_eq_true'] at h
      rcases h with h | h
      · rw [hc] at h; exact absurd h (by simp)
      · exact h
  · rintro ⟨h, hl⟩
    refine ⟨?_, hl⟩
    cases hch : a.children with
    | nil => rfl
    | cons first rest =>
      obtain ⟨name, hn, hc⟩ := h first rest hch
      rw [hn]
      simp only [Bool.or_eq_true, Bool.not_eq_true']
      by_cases hcon : tags.contains name = true
      · exact Or.inr (hc hcon)
      · exact Or.inl (by simpa using hcon)

theorem is_filled_of_children_nil (tag : String) (a : xmlNode) (h : a.children = []) :
    is_filled tag a = false := by
  simp [is_filled, h]

theorem is_filled_of_children_cons (tag name : String) (a first : xmlNode)
    (rest : List xmlNode) (h : a.children = first :: rest) (hn : a.name = some name) :
    is_filled tag a = decide (name = tag) := by
  simp [is_filled, h, hn]

theorem text_of_cons (a first : xmlNode) (rest : List xmlNode) (h : a.children = first :: rest) :
    text_of a = first.content := by
  simp [text_of, h]

theorem scan_file_eq : ∀ (nodes : List xmlNode) (x : XarFile) (i : Bool) (d : Option xmlNode),
    texted ["name"] nodes = true →
    ParseNodeFile_scan_file nodes x i d
      = some ({ x with name := match last_child "name" nodes with
                               | some c => (text_of c).getD ""
                               | none => x.name },
              i || (last_child "name" nodes).isSome,
              (last_child "data" nodes).or d) := by
  intro nodes
  induction nodes with
  | nil => intro x i d _; simp [ParseNodeFile_scan_file, last_child_nil]
  | cons a l ih =>
    intro x i d ht
    rw [texted_cons] at ht
    obtain ⟨ha, hl⟩ := ht
    cases hch : a.children with
    | nil =>
      simp only [ParseNodeFile_scan_file, hch, last_child_cons,
        is_filled_of_children_nil _ a hch]
      rw [ih x i d hl]
      simp
    | cons first rest =>
      obtain ⟨name, hname, hc⟩ := ha first rest hch
      simp only [ParseNodeFile_scan_file, hch, hname, last_child_cons,
        is_filled_of_children_cons _ name a first rest hch hname]
      by_cases hn : name = "name"
      · obtain ⟨s, hs⟩ := Option.isSome_iff_exists.mp (hc (by simp [hn]))
        have hnd : ¬ ("name" : String) = "data" := by decide
        simp only [hn, if_true, hs]
        rw [ih _ _ _ hl]
        have hta : text_of a = some s := by rw [text_of_cons a first rest hch, hs]
        cases hlc : last_child "name" l <;> simp [hta, hnd]
      · by_cases hd : name = "data"
        · have hdn : ¬ ("data" : String) = "name" := by decide
          simp only [hd, hdn, if_false, if_true]
          rw [ih _ _ _ hl]
          cases hlc : last_child "data" l <;> simp
        · simp only [hn, hd, if_false]
          rw [ih _ _ _ hl]
          simp [hn, hd]

theorem scan_data_eq : ∀ (nodes : List xmlNode) (x : XarFile) (o s : Bool),
    texted ["offset", "length"] nodes = true →
    ParseNodeFile_scan_data nodes x o s
      = some ({ x with
                offset := match last_child "offset" nodes with
                          | some c => to_uint64 (atol ((text_of c).getD ""))
                          | none => x.offset
                size := match last_child "length" nodes with
                        | some c => to_uint64 (atol ((text_of c).getD ""))
                        | none => x.size },
              o || (last_child "offset" nodes).isSome,
              s || (last_child "length" nodes).isSome) := by
  intro nodes
  induction nodes with
  | nil => intro x o s _; simp [ParseNodeFile_scan_data, last_child_nil]
  | cons a l ih =>
    intro x o s ht
    rw [texted_cons] at ht
    obtain ⟨ha, hl⟩ := ht
    cases hch : a.children with
    | nil =>
      simp only [ParseNodeFile_scan_data, hch, last_child_cons,
        is_filled_of_children_nil _ a hch]
      rw [ih x o s hl]
      simp
    | cons first rest =>
      obtain ⟨name, hname, hc⟩ := ha first rest hch
      simp only [ParseNodeFile_scan_data, hch, hname, last_child_cons,
        is_filled_of_children_cons _ name a first rest hch hname]
      by_cases hn : name = "offset"
      · obtain ⟨t, hs⟩ := Option.isSome_iff_exists.mp (hc (by simp [hn]))
        have hol : ¬ ("offset" : String) = "length" := by decide
        simp only [hn, if_true, hs]
        rw [ih _ _ _ hl]
        have hta : text_of a = some t := by rw [text_of_cons a first rest hch, hs]
        cases hlc : last_child "offset" l <;> simp [hta, hol]
      · by_cases hd : name = "length"
        · obtain ⟨t, hs⟩ := Option.isSome_iff_exists.mp (hc (by simp [hd]))
          have hlo : ¬ ("length" : String) = "offset" := by decide
          simp only [hd, hlo, if_false, if_true, hs]
          rw [ih _ _ _ hl]
          have hta : text_of a = some t := by rw [text_of_cons a first rest hch, hs]
          cases hlc : last_child "length" l <;> simp [hta]
        · simp only [hn, hd, if_false]
          rw [ih _ _ _ hl]
          simp [hn, hd]

theorem last_child_mem (tag : String) (nodes : List xmlNode) (c : xmlNode)
    (h : last_child tag nodes = some c) : c ∈ nodes ∧ is_filled tag c = true := by
  unfold last_child at h
  have h1 := List.find?_some h
  have h2 := List.mem_of_find?_eq_some h
  exact ⟨List.mem_reverse.mp h2, h1⟩

theorem texted_text_of (tags : List String) (nodes : List xmlNode) (tag : String)
    (c : xmlNode) (ht : texted tags nodes = true) (htag : tag ∈ tags)
    (h : last_child tag nodes = some c) : ∃ s, text_of c = some s := by
  obtain ⟨hm, hf⟩ := last_child_mem tag nodes c h
  simp only [is_filled, Bool.and_eq_true, decide_eq_true_eq, Bool.not_eq_true',
    List.isEmpty_eq_false] at hf
  obtain ⟨hname, hne⟩ := hf
  simp only [texted, List.all_eq_true] at ht
  have := ht c hm
  cases hch : c.children with
  | nil => exact absurd hch (by simpa using hne)
  | cons first rest =>
    rw [hch, hname] at this
    simp only [Bool.or_eq_true, Bool.not_eq_true'] at this
    rcases this with h1 | h1
    · have : tags.contains tag = true := by simpa using htag
      rw [this] at h1; exact absurd h1 (by simp)
    · rw [text_of_cons c first rest hch]
      exact Option.isSome_iff_exists.mp h1

theorem no_null_text_data (f d : xmlNode) (h : no_null_text f = true)
    (hd : last_child "data" f.children = some d) : texted ["offset", "length"] d.children = true := by
  obtain ⟨hm, hf⟩ := last_child_mem _ _ _ hd
  simp only [no_null_text, Bool.and_eq_true, List.all_eq_true, Bool.or_eq_true,
    Bool.not_eq_true', decide_eq_false_iff_not] at h
  simp only [is_filled, Bool.and_eq_true, decide_eq_true_eq] at hf
  rcases h.2 d hm with h1 | h1
  · exact absurd hf.1 h1
  · exact h1

theorem ParseNodeFile_outcome (f : xmlNode) (x : XarFile) (h : no_null_text f = true) :
    (∀ e, entry_of_file f = some e → ParseNodeFile f x = some (true, e))
      ∧ (entry_of_file f = none → ∃ y, ParseNodeFile f x = some (false, y)) := by
  have hname : texted ["name"] f.children = true := by
    simp only [no_null_text, Bool.and_eq_true] at h; exact h.1
  unfold ParseNodeFile entry_of_file
  rw [scan_file_eq _ _ _ _ hname]
  cases hn : last_child "name" f.children with
  | none => simp
  | some c =>
    obtain ⟨s, hs⟩ := texted_text_of ["name"] _ "name" c hname (by simp) hn
    cases hd : last_child "data" f.children with
    | none => simp [hs]
    | some d =>
      have hdt := no_null_text_data f d h hd
      simp only [Option.bind_some, hs, Bool.false_or, Option.isSome_some, Option.or_some,
        Option.getD_some]
      rw [scan_data_eq _ _ _ _ hdt]
      cases ho : last_child "offset" d.children with
      | none => simp [hs, ho]
      | some oc =>
        obtain ⟨so, hso⟩ := texted_text_of _ _ "offset" oc hdt (by simp) ho
        cases hl : last_child "length" d.children with
        | none => simp [hs, hso, ho, hl]
        | some lc =>
          obtain ⟨sl, hsl⟩ := texted_text_of _ _ "length" lc hdt (by simp) hl
          simp [hs, hso, hsl, ho, hl]

theorem toc_child_safe_iff (a : xmlNode) :
    toc_child_safe a = true ↔
      ∃ name, a.name = some name ∧ (name = "file" → no_null_text a = true) := by
  unfold toc_child_safe
  cases hn : a.name with
  | none => simp
  | some name =>
    simp only [Option.isSome_some, Bool.true_and, Bool.or_eq_true, Bool.not_eq_true',
      decide_eq_false_iff_not, Option.some.injEq, exists_eq_left']
    constructor
    · rintro (h | h)
      · exact fun hf => absurd hf h
      · exact fun _ => h
    · intro h
      by_cases hf : name = "file"
      · exact Or.inr (h hf)
      · exact Or.inl hf

theorem ParseTableOfContents_loop_eq : ∀ (nodes : List xmlNode) (x : XarFile)
    (result : List XarFile),
    (∀ f ∈ nodes, toc_child_safe f = true) →
    ParseTableOfContents_loop nodes x result = some (result ++ nodes.filterMap entry_of_node) := by
  intro nodes
  induction nodes with
  | nil => intro x result _; simp [ParseTableOfContents_loop]
  | cons a l ih =>
    intro x result h
    have hl : ∀ f ∈ l, toc_child_safe f = true :=
      fun f hf => h f (List.mem_cons_of_mem _ hf)
    obtain ⟨name, hname, hsafe⟩ := (toc_child_safe_iff a).mp (h a (List.mem_cons_self _ _))
    by_cases hfile : name = "file"
    · subst hfile
      obtain ⟨hacc, hrej⟩ := ParseNodeFile_outcome a x (hsafe rfl)
      cases he : entry_of_file a with
      | none =>
        obtain ⟨y, hy⟩ := hrej he
        simp only [ParseTableOfContents_loop, hname, if_true, hy]
        rw [ih _ _ hl, List.filterMap_cons_none (by simp [entry_of_node, hname, he])]
      | some e =>
        simp only [ParseTableOfContents_loop, hname, if_true, hacc e he]
        have hn : entry_of_node a = some e := by simp [entry_of_node, hname, he]
        rw [ih _ _ hl, List.filterMap_cons_some hn]
        simp
    · simp only [ParseTableOfContents_loop, hname, hfile, if_false]
      rw [ih _ _ hl, List.filterMap_cons_none (by simp [entry_of_node, hname, hfile])]

theorem digits_value_all : ∀ (cs : List Char) (acc : Nat), cs.all isdigit = true →
    digits_value cs acc = cs.foldl (fun acc c => acc * 10 + (c.toNat - 48)) acc := by
  intro cs
  induction cs with
  | nil => intro acc _; rfl
  | cons c cs ih =>
    intro acc h
    simp only [List.all_cons, Bool.and_eq_true] at h
    simp only [digits_value, h.1, if_true, List.foldl_cons]
    exact ih _ h.2

theorem isdigit_not_space (c : Char) (h : isdigit c = true) : isspace c = false := by
  simp only [isdigit, decide_eq_true_eq] at h
  simp only [isspace, Bool.or_eq_false_iff, decide_eq_false_iff_not]
  refine ⟨⟨⟨⟨⟨?_, ?_⟩, ?_⟩, ?_⟩, ?_⟩, ?_⟩
  · rintro rfl; revert h; decide
  · rintro rfl; revert h; decide
  · rintro rfl; revert h; decide
  · rintro rfl; revert h; decide
  · omega
  · omega

theorem strtol_signed_digits (c : Char) (cs : List Char) (h : isdigit c = true) :
    strtol_signed (c :: cs) = min (digits_value (c :: cs) 0 : Int) LONG_MAX := by
  simp only [isdigit, decide_eq_true_eq] at h
  have h1 : c ≠ '-' := by rintro rfl; revert h; decide
  have h2 : c ≠ '+' := by rintro rfl; revert h; decide
  unfold strtol_signed
  split
  · rename_i heq; simp at heq; exact absurd heq.1 h1
  · rename_i heq; simp at heq; exact absurd heq.1 h2
  · rfl

theorem atol_decimal (s : String) (v : Nat) (h : decimal_value s = some v) (hv : v < 2 ^ 63) :
    to_uint64 (atol s) = v := by
  unfold decimal_value at h
  split at h
  · rename_i hc
    obtain ⟨hne, hall⟩ := hc
    have hv' := Option.some.inj h
    cases hcs : s.toList with
    | nil => exact absurd hcs hne
    | cons c cs =>
      rw [hcs] at hall hv'
      have hc : isdigit c = true := by
        simp only [List.all_cons, Bool.and_eq_true] at hall; exact hall.1
      unfold atol
      rw [hcs, List.dropWhile_cons, isdigit_not_space c hc]
      simp only [Bool.false_eq_true, if_false]
      rw [strtol_signed_digits c cs hc, digits_value_all _ _ hall, hv']
      unfold to_uint64 LONG_MAX
      omega
  · exact absurd h (by simp)

theorem text_of_isSome_filled (tag : String) (c : xmlNode) (hn : c.name = some tag)
    (h : (text_of c).isSome = true) : is_filled tag c = true := by
  cases hch : c.children with
  | nil => simp [text_of, hch] at h
  | cons first rest => simp [is_filled, hch, hn]

theorem has_text_child_last (tag : String) (node : xmlNode)
    (h : has_text_child tag node = true) : ∃ c, last_child tag node.children = some c := by
  simp only [has_text_child, List.any_eq_true, Bool.and_eq_true, decide_eq_true_eq] at h
  obtain ⟨c, hc, hn, ht⟩ := h
  have hf := text_of_isSome_filled tag c hn ht
  have : (last_child tag node.children).isSome = true := by
    unfold last_child
    rw [List.find?_isSome]
    exact ⟨c, List.mem_reverse.mpr hc, hf⟩
  exact Option.isSome_iff_exists.mp this

theorem last_has_text_child (tags : List String) (tag : String) (node c : xmlNode)
    (ht : texted tags node.children = true) (htag : tag ∈ tags)
    (h : last_child tag node.children = some c) : has_text_child tag node = true := by
  obtain ⟨hm, hf⟩ := last_child_mem _ _ _ h
  obtain ⟨s, hs⟩ := texted_text_of tags _ tag c ht htag h
  simp only [is_filled, Bool.and_eq_true, decide_eq_true_eq] at hf
  simp only [has_text_child, List.any_eq_true, Bool.and_eq_true, decide_eq_true_eq]
  exact ⟨c, hm, hf.1, by simp [hs]⟩

theorem entry_of_file_isSome_iff (f : xmlNode) (h : no_null_text f = true) :
    (∃ e, entry_of_file f = some e) ↔
      (has_text_child "name" f = true ∧ ∃ d, last_child "data" f.children = some d
        ∧ has_text_child "offset" d = true ∧ has_text_child "length" d = true) := by
  have hname : texted ["name"] f.children = true := by
    simp only [no_null_text, Bool.and_eq_true] at h; exact h.1
  constructor
  · rintro ⟨e, he⟩
    unfold entry_of_file at he
    cases hn : last_child "name" f.children with
    | none => simp [hn] at he
    | some c =>
      cases hd : last_child "data" f.children with
      | none =>
        rw [hn, hd] at he
        cases htc : text_of c <;> simp [htc] at he
      | some d =>
        have hdt := no_null_text_data f d h hd
        refine ⟨last_has_text_child _ _ f c hname (by simp) hn, d, rfl, ?_, ?_⟩
        · cases ho : last_child "offset" d.children with
          | none =>
            rw [hn, hd] at he
            cases htc : text_of c <;> simp [htc, ho] at he
          | some oc => exact last_has_text_child _ _ d oc hdt (by simp) ho
        · cases hl : last_child "length" d.children with
          | none =>
            rw [hn, hd] at he
            cases htc : text_of c <;>
              cases hto : (last_child "offset" d.children).bind text_of <;>
                simp [htc, hl, hto] at he
          | some lc => exact last_has_text_child _ _ d lc hdt (by simp) hl
  · rintro ⟨hn, d, hd, ho, hl⟩
    have hdt := no_null_text_data f d h hd
    obtain ⟨c, hc⟩ := has_text_child_last _ _ hn
    obtain ⟨oc, hoc⟩ := has_text_child_last _ _ ho
    obtain ⟨lc, hlc⟩ := has_text_child_last _ _ hl
    obtain ⟨s, hs⟩ := texted_text_of _ _ "name" c hname (by simp) hc
    obtain ⟨so, hso⟩ := texted_text_of _ _ "offset" oc hdt (by simp) hoc
    obtain ⟨sl, hsl⟩ := texted_text_of _ _ "length" lc hdt (by simp) hlc
    exact ⟨{ name := s, offset := to_uint64 (atol so), size := to_uint64 (atol sl) },
      by simp [entry_of_file, hc, hd, hoc, hlc, hs, hso, hsl]⟩

/-- C5, as stated, fails: this `file` element has a `name` child with text and a `data` child
with `offset` and `length`, yet `ParseNodeFile` returns false, because only the last `data`
child is looked at. -/
theorem ParseNodeFile_two_data_rejected :
    claimed_accept two_data_file = true
      ∧ (ParseNodeFile two_data_file XarFile.fresh).map Prod.fst = some false := by
  decide

/-- C5 (amended): for a `file` element in which no null pointer is met (`no_null_text`: its
`name`, `offset` and `length` elements start with text), `ParseNodeFile` returns true exactly
when the element has a `name` child with text and the last of its `data` children that has a
child has an `offset` and a `length` child with text; an element that fails this test adds
nothing to the result of the loop of `ParseTableOfContents`, which still returns the entries
of all other `file` elements. -/
theorem ParseNodeFile_accepts_iff (f : xmlNode) (hf : no_null_text f = true) :
    (∀ x : XarFile, (∃ e, ParseNodeFile f x = some (true, e)) ↔
        (has_text_child "name" f = true ∧ ∃ d, last_child "data" f.children = some d
          ∧ has_text_child "offset" d = true ∧ has_text_child "length" d = true))
    ∧ (∀ (before after : List xmlNode) (x : XarFile) (result : List XarFile),
        f.name = some "file" →
        (∀ g ∈ before ++ after, toc_child_safe g = true) →
        ¬ (has_text_child "name" f = true ∧ ∃ d, last_child "data" f.children = some d
          ∧ has_text_child "offset" d = true ∧ has_text_child "length" d = true) →
        ParseTableOfContents_loop (before ++ f :: after) x result
          = some (result ++ (before ++ after).filterMap entry_of_node)) := by
  constructor
  · intro x
    rw [← entry_of_file_isSome_iff f hf]
    obtain ⟨hacc, hrej⟩ := ParseNodeFile_outcome f x hf
    constructor
    · rintro ⟨e, he⟩
      cases hent : entry_of_file f with
      | none =>
        obtain ⟨y, hy⟩ := hrej hent
        rw [hy] at he
        exact absurd he (by simp)
      | some e1 => exact ⟨e1, rfl⟩
    · rintro ⟨e, he⟩
      exact ⟨e, hacc e he⟩
  · intro before after x result hfile hall hrej
    rw [← entry_of_file_isSome_iff f hf] at hrej
    have hnone : entry_of_node f = none := by
      cases hent : entry_of_file f with
      | none => simp [entry_of_node, hent]
      | some e => exact absurd ⟨e, hent⟩ hrej
    rw [ParseTableOfContents_loop_eq]
    · simp [List.filterMap_append, List.filterMap_cons_none hnone]
    · intro g hg
      rw [List.mem_append, List.mem_cons] at hg
      rcases hg with hg | rfl | hg
      · exact hall g (List.mem_append.mpr (Or.inl hg))
      · exact (toc_child_safe_iff g).mpr ⟨"file", hfile, fun _ => hf⟩
      · exact hall g (List.mem_append.mpr (Or.inr hg))

/-- Witness for C5: between two valid `file` elements, an element whose last `data` child lacks
`length` is dropped and the two others are returned. -/
theorem ParseNodeFile_accepts_iff_witness :
    ParseTableOfContents_loop
        ([file_element "A" "0" "5"] ++ two_data_file :: [file_element "B" "5" "3"])
        XarFile.fresh []
      = some [{ name := "A", offset := 0, size := 5 }, { name := "B", offset := 5, size := 3 }] := by
  rw [(ParseNodeFile_accepts_iff two_data_file (by decide)).2 [file_element "A" "0" "5"]
    [file_element "B" "5" "3"] XarFile.fresh [] rfl (by decide) (by decide)]
  decide

set_option maxRecDepth 100000 in
/-- C6, at a failing input: the TOC is laid out as the comment of `ParseTableOfContents` draws
it, with `toc` on an indented line of its own. The root contains a `toc` child with the two
valid `file` elements `A` and `B`, which the claim promises as entries, but lines 201-205 take
the first child of the root without testing its name; that child is the white-space text
node, it has no children, and `ParseTableOfContents` returns no entry. -/
theorem ParseTableOfContents_indented_toc_no_entry :
    claimed_entries indented_doc
        = some [{ name := "A", offset := 0, size := 5 }, { name := "B", offset := 5, size := 3 }]
      ∧ ParseTableOfContents indented_xmlReadMemory (ascii indented_toc_text) = some [] := by
  decide

/-- Where the `toc` element does stand first: when the first child of the first node of the
parsed document is the `toc` element and no null pointer is met in its children
(`toc_child_safe`: they are named and the `file` elements among them hold text in their `name`,
`offset` and `length` elements), the result lists, in document order, one entry per `file`
element that is a direct child of it and describes an entry, and nothing else: the name is
the text of the `name` child, offset and size are what `atol` reads in the `offset` and
`length` children of the `data` child, which for decimal text below `2^63` is the number
written. Nodes nested deeper contribute nothing. -/
theorem ParseTableOfContents_entries (xmlReadMemory : List Byte → Option xmlDoc)
    (toc_xml : List Byte) (xar_node toc_node : xmlNode) (siblings others : List xmlNode)
    (hdoc : xmlReadMemory toc_xml = some { children := xar_node :: others })
    (htoc : xar_node.children = toc_node :: siblings)
    (htext : ∀ f ∈ toc_node.children, toc_child_safe f = true) :
    ParseTableOfContents xmlReadMemory toc_xml
        = some (toc_node.children.filterMap entry_of_node)
      ∧ (∀ (s : String) (v : Nat), decimal_value s = some v → v < 2 ^ 63 →
          to_uint64 (atol s) = v) := by
  refine ⟨?_, atol_decimal⟩
  simp only [ParseTableOfContents, hdoc, htoc]
  rw [ParseTableOfContents_loop_eq _ _ _ htext]
  simp

/-- An instance of `ParseTableOfContents_entries`: two entries in document order, the `file`
element nested in the first one being ignored; and the offset `8111880836` of the comment in
`ParseNodeFile` is read as that number. -/
theorem ParseTableOfContents_entries_witness :
    ParseTableOfContents (fun _ => some nested_doc) []
        = some [{ name := "A", offset := 0, size := 5 }, { name := "B", offset := 5, size := 3 }]
      ∧ to_uint64 (atol "8111880836") = 8111880836 := by
  have h := ParseTableOfContents_entries (fun _ => some nested_doc) [] _ _ _ _ rfl rfl
    (by decide)
  refine ⟨?_, h.2 "8111880836" 8111880836 (by decide) (by decide)⟩
  rw [h.1]
  decide

set_option maxRecDepth 100000 in
/-- The round trip of the specification: the sample archive yields the TOC side file, a file
`A` with content `HELLO` and a file `B` with content `xyz`, and exit status 0. -/
theorem main_sample_archive :
    main sample_world "out/" sample_archive
      = { status := some 0, toc_read := true,
          disk := [("out/xip_toc.xml", ascii sample_toc_text), ("out/A", ascii "HELLO"),
                   ("out/B", ascii "xyz")],
          stdout := ["out/A\tdone\n", "out/B\tdone\n"], fatal := [] } := by
  decide

theorem sample_header_decoded :
    main_header { data := sample_archive, pos := 0 } = some sample_header := by
  decide

set_option maxRecDepth 100000 in
/-- Witness for C1: entries `A` (offset 0, size 5) and `B` (offset 5, size 3) of the sample
archive, whose heap `HELLOxyz` starts right after the compressed TOC, give `HELLO` and `xyz`. -/
theorem main_extract_copies_payload_witness :
    (main_extract sample_world "out/" sample_header { name := "A", offset := 0, size := 5 }
        { data := sample_archive, pos := 213 } []).2.2.1 = [("out/A", ascii "HELLO")]
      ∧ (main_extract sample_world "out/" sample_header { name := "B", offset := 5, size := 3 }
        { data := sample_archive, pos := 218 } []).2.2.1 = [("out/B", ascii "xyz")] := by
  constructor
  · rw [main_extract_copies_payload sample_world "out/" sample_header _ sample_archive 213 []
      (by decide) (by decide) (by decide)]
    decide
  · rw [main_extract_copies_payload sample_world "out/" sample_header _ sample_archive 218 []
      (by decide) (by decide) (by decide)]
    decide

/-! ## Decompression of the TOC (C7) -/

theorem SaveFileStreamToFile_seek_fails (canCreate : String → Bool) (disk : Disk)
    (filepath : String) (file_stream : FILE) (offset size : Nat)
    (hseek : to_long offset < 0) :
    (SaveFileStreamToFile canCreate disk filepath file_stream offset size).1 = false := by
  unfold SaveFileStreamToFile
  split
  · rfl
  · simp [fseek, hseek]

theorem main_loop_prints_every_entry (w : World) (outdir : String) (header : XipHeader) :
    ∀ (files : List XarFile) (file : FILE) (disk : Disk) (stdout : List String),
      (main_loop w outdir header files file disk stdout).2.2.length
        = stdout.length + files.length := by
  intro files
  induction files with
  | nil => intro file disk stdout; simp [main_loop]
  | cons x rest ih =>
    intro file disk stdout
    simp only [main_loop]
    rw [ih]
    simp
    omega

set_option maxRecDepth 100000 in
/-- C8, at a failing input: entry `A` of this archive announces 50 bytes where the source has
8 left. Its copy stops at the short read, yet `SaveFileStreamToFile` returns true and `main`
prints `done` for it. The entry `N`, whose offset makes `fseek` fail, is reported with
`error`, and the last entry `B` is still extracted. -/
theorem main_short_read_reports_done :
    SaveFileStreamToFile (fun _ => true) [] "out/A" { data := greedy_archive, pos := 293 } 293 50
        = (true, { data := greedy_archive, pos := 301 }, [("out/A", [])])
      ∧ main sample_world "out/" greedy_archive
        = { status := some 0, toc_read := true,
            disk := [("out/xip_toc.xml", ascii greedy_toc_text), ("out/A", []), ("out/N", []),
                     ("out/B", ascii "xyz")],
            stdout := ["out/A\tdone\n", "out/N\terror\n", "out/B\tdone\n"], fatal := [] } := by
  decide

set_option maxRecDepth 100000 in
theorem ZlibUncompress_rejects_long_output :
    (inflate_stored (zlib_store (ascii "ABC")) 2).ret = Z_OK
      ∧ (ZlibUncompress zlib_stored (zlib_store (ascii "ABC")) (new_uint8 sample_world 2)).1
        = false := by
  decide

set_option maxRecDepth 100000 in
/-- C9, as stated, fails: five source bytes are available for an entry of size 10, and the
output file stays empty instead of holding these five bytes. -/
theorem SaveFileStreamToFile_drops_short_read :
    (ascii "HELLO").length - 0 < 10
      ∧ (SaveFileStreamToFile (fun _ => true) [] "out/A" { data := ascii "HELLO", pos := 0 } 0 10).2.2
        = [("out/A", [])]
      ∧ (ascii "HELLO").drop 0 ≠ [] := by
  decide

/-- C9 (amended): when fewer bytes are available from the entry's offset than its size says,
the output file holds the whole chunks of `sizeof(buffer)` = 16384 bytes that could be read:
the first `k / 16384 * 16384` of the `k` available bytes. The bytes delivered by the final
short read are not written, so `k` below one chunk leaves the file empty. -/
theorem SaveFileStreamToFile_short_content (canCreate : String → Bool) (disk : Disk)
    (filepath : String) (file_stream : FILE) (offset size : Nat)
    (hcreate : canCreate filepath = true) (hoff : offset < 2 ^ 63)
    (hshort : file_stream.data.length - offset < size) :
    (SaveFileStreamToFile canCreate disk filepath file_stream offset size).2.2
      = disk ++ [(filepath, (file_stream.data.drop offset).take
          ((file_stream.data.length - offset) / 16384 * 16384))] :=
  (SaveFileStreamToFile_short canCreate disk filepath file_stream offset size hcreate hoff
    hshort).2

set_option maxRecDepth 100000 in
/-- Witness for C9: five available bytes, ten announced, nothing written. -/
theorem SaveFileStreamToFile_short_content_witness :
    (SaveFileStreamToFile (fun _ => true) [] "out/A" { data := ascii "HELLO", pos := 0 } 0 10).2.2
      = [] ++ [("out/A", ((ascii "HELLO").drop 0).take (((ascii "HELLO").length - 0) / 16384 * 16384))] :=
  SaveFileStreamToFile_short_content (fun _ => true) [] "out/A" _ 0 10 rfl (by decide) (by decide)

set_option maxRecDepth 100000 in
/-- C10, at a failing input: the TOC decompresses to `ABC`, which libxml2 cannot parse;
`ParseTableOfContents` returns no entry and `main` returns 0, not 1. The side file is written,
no member is extracted. -/
theorem main_unparsable_toc_exits_zero :
    ParseTableOfContents sample_world.xmlReadMemory (ascii "ABC") = some []
      ∧ main sample_world "out/" not_xml_archive
        = { status := some 0, toc_read := true, disk := [("out/xip_toc.xml", ascii "ABC")],
            stdout := [], fatal := [] } := by
  decide

end Unxip
